import Mathlib

/-!
Shallow embedding of the request-coalescing core of `src/batch-client/index.ts`
(class `ZimbraBatchClient`), together with a model of the `dataloader` library
contract the class relies on (batching loader with a per-reference promise
cache, and a `batch: false` loader that dispatches each uncached load alone).

JavaScript string truthiness (`if (sessionId)`) is modelled explicitly: a
value read by `get` is `Option String`, absent paths give `none`, and the
guard accepts exactly `some s` with `s` non-empty.
-/

namespace ZmBatchClient

/-- One logical request's options as submitted to `jsonRequest`
(`JsonRequestOptions`): operation name, opaque body payload, and the optional
`accountName` scope. -/
structure RequestOptions where
  name : String
  body : String
  accountName : Option String
deriving DecidableEq, Repr

/-- The `header.context` portion of a reply envelope that the handlers read via
`get(response, 'header.context.session.id')` and
`get(response, 'header.context.notify.0')`: an optional session id and the
list of notification blocks. -/
structure Header where
  session : Option String
  notify : List String
deriving DecidableEq, Repr

/-- One element of a batch reply's `requests` array: either an error-shaped
value (recognised by lodash `isError`) or a successful item with a `body`. -/
inductive ReplyItem
  | err (e : String)
  | ok (body : String)
deriving DecidableEq, Repr

/-- The structured reply envelope of `batchJsonRequest`: a header and the
positional `requests` array of per-item outcomes. -/
structure BatchResponse where
  header : Header
  requests : List ReplyItem
deriving DecidableEq, Repr

/-- The resolved value of the single-call `jsonRequest` transport: either an
error-shaped value (lodash `isError`) or a structured response with a header
and a `body`. `get` on an error value finds no header paths. -/
inductive SingleResponse
  | err (e : String)
  | ok (header : Header) (body : String)
deriving DecidableEq, Repr

/-- Mutable state of a `ZimbraBatchClient` instance: `origin`, `soapPathname`,
the shared `sessionId` (initialised to the placeholder `"1"`), and whether a
`notificationHandler` is registered. -/
structure ClientState where
  origin : String
  soapPathname : String
  sessionId : String
  hasNotificationHandler : Bool
deriving DecidableEq, Repr

/-- The envelope handed to `batchJsonRequest` by `batchDataHandler`:
`{ requests, sessionId: this.sessionId, origin: this.origin }`. -/
structure BatchEnvelope where
  requests : List RequestOptions
  sessionId : String
  origin : String
deriving DecidableEq, Repr

/-- The envelope handed to the single-call `jsonRequest` by `dataHandler`:
`{ ...requests[0], sessionId: this.sessionId, origin: this.origin }`. -/
structure SingleEnvelope where
  name : String
  body : String
  accountName : Option String
  sessionId : String
  origin : String
deriving DecidableEq, Repr

/-- JavaScript truthiness of a string-valued expression read by `get`:
`undefined` (`none`) and the empty string are falsy, every other string is
truthy. -/
def truthy : Option String → Bool
  | none => false
  | some s => s != ""

/-- Where `jsonRequest` sends a request: the single-call `dataLoader` or the
coalescing `batchDataLoader`. -/
inductive Route
  | single
  | batch
deriving DecidableEq, Repr

/-- `jsonRequest` (lines 412-419): destructures `accountName` from the options
and submits to `this.dataLoader` when it is truthy, else to
`this.batchDataLoader`. It is a method of the client (`this` = `st`) but its
body reads nothing from the instance. -/
def jsonRequestOn (st : ClientState) (options : RequestOptions) : Route :=
  if truthy options.accountName then Route.single else Route.batch

/-- The session-update step shared verbatim by both completion handlers
(lines 643-648 and 672-677): `if (sessionId) { this.sessionId = sessionId; }`
where `sessionId = get(response, 'header.context.session.id')`. -/
def applySessionHeader (st : ClientState) (sessionId : Option String) : ClientState :=
  match sessionId with
  | some s => if s != "" then { st with sessionId := s } else st
  | none => st

/-- Observable per-call events, in the order the handler produces them:
a write of the shared session id, an invocation of the registered
notification handler, and the delivery of caller `i`'s outcome. -/
inductive Outcome
  | resolved (body : String)
  | rejected (e : String)
deriving DecidableEq, Repr

inductive Event
  | sessionSet (tok : String)
  | notified (payload : String)
  | delivered (i : Nat) (o : Outcome)
deriving DecidableEq, Repr

def isDeliveredE : Event → Bool
  | Event.delivered _ _ => true
  | _ => false

def isNotifiedE : Event → Bool
  | Event.notified _ => true
  | _ => false

/-- The session-write event emitted by the guarded assignment of
`this.sessionId` (empty/absent id: no write). -/
def sessionEvents (sessionId : Option String) : List Event :=
  match sessionId with
  | some s => if s != "" then [Event.sessionSet s] else []
  | none => []

/-- The notification event emitted by
`if (notifications && this.notificationHandler) this.notificationHandler(notifications)`
where `notifications = get(response, 'header.context.notify.0')`; notification
blocks are objects, hence truthy whenever present. -/
def notifyEvents (st : ClientState) (notifications : Option String) : List Event :=
  match notifications with
  | some n => if st.hasNotificationHandler then [Event.notified n] else []
  | none => []

/-- The value `batchDataHandler` returns to DataLoader at position `i`:
`isError(r) ? r : r.body`. -/
inductive LoadedValue
  | errVal (e : String)
  | val (b : String)
deriving DecidableEq, Repr

def mapReplyItem : ReplyItem → LoadedValue
  | ReplyItem.err e => LoadedValue.errVal e
  | ReplyItem.ok b => LoadedValue.val b

/-- The envelope construction at the dispatch point of `batchDataHandler`
(lines 638-641), reading `this.sessionId` at that moment. -/
def dispatchEnvelope (st : ClientState) (requests : List RequestOptions) : BatchEnvelope :=
  { requests := requests, sessionId := st.sessionId, origin := st.origin }

/-- `batchDataHandler` (lines 637-664), with the transport `batchJsonRequest`
passed in as `transport`. A transport rejection skips the `.then` body and
propagates as the batch function's rejection (`Except.error`); a structured
reply first applies the session update, then the notification relay, then maps
`response.requests` positionally through `isError(r) ? r : r.body`.
The returned triple is (state after completion, events in program order
excluding caller deliveries, the handler's settled value). -/
def batchDataHandler (transport : BatchEnvelope → Except String BatchResponse)
    (st : ClientState) (requests : List RequestOptions) :
    ClientState × List Event × Except String (List LoadedValue) :=
  match transport (dispatchEnvelope st requests) with
  | Except.error e => (st, [], Except.error e)
  | Except.ok response =>
      let sessionId := response.header.session
      let notifications := response.header.notify.head?
      (applySessionHeader st sessionId,
       sessionEvents sessionId ++ notifyEvents st notifications,
       Except.ok (response.requests.map mapReplyItem))

/-- The session id read by the handlers from a single-call response:
`get` on an error-shaped value finds no `header.context.session.id`. -/
def respSessionId : SingleResponse → Option String
  | SingleResponse.err _ => none
  | SingleResponse.ok h _ => h.session

/-- The first notification block read from a single-call response
(`get(response, 'header.context.notify.0')`). -/
def respNotifyHead : SingleResponse → Option String
  | SingleResponse.err _ => none
  | SingleResponse.ok h _ => h.notify.head?

/-- The envelope construction of `dataHandler` (lines 667-670) for the request
it spreads: `{ ...r, sessionId: this.sessionId, origin: this.origin }`. -/
def singleEnvelope (st : ClientState) (r : RequestOptions) : SingleEnvelope :=
  { name := r.name, body := r.body, accountName := r.accountName,
    sessionId := st.sessionId, origin := st.origin }

/-- `dataHandler` (lines 666-684), with the single-call transport passed in as
`transport`. It spreads `requests[0]` into the envelope (it is `none` here only
on an empty input list, which the `batch: false` loader never produces), then
applies the same session/notification steps as the batch handler, and returns
the singleton `isError(response) ? [response] : [response.body]`. -/
def dataHandler (transport : SingleEnvelope → Except String SingleResponse)
    (st : ClientState) (requests : List RequestOptions) :
    Option (ClientState × List Event × Except String (List LoadedValue)) :=
  match requests.head? with
  | none => none
  | some r =>
      match transport (singleEnvelope st r) with
      | Except.error e => some (st, [], Except.error e)
      | Except.ok response =>
          let sessionId := respSessionId response
          let notifications := respNotifyHead response
          some (applySessionHeader st sessionId,
            sessionEvents sessionId ++ notifyEvents st notifications,
            Except.ok (match response with
              | SingleResponse.err e => [LoadedValue.errVal e]
              | SingleResponse.ok _ b => [LoadedValue.val b]))

/-- DataLoader's settlement of one dispatched batch of `n` pending loads:
a rejected batch promise rejects every load with that error; a resolved value
list settles each position, rejecting exactly the `Error`-valued positions. -/
def loadedToOutcome : LoadedValue → Outcome
  | LoadedValue.errVal e => Outcome.rejected e
  | LoadedValue.val b => Outcome.resolved b

def settleBatch (n : Nat) : Except String (List LoadedValue) → List Outcome
  | Except.error e => List.replicate n (Outcome.rejected e)
  | Except.ok vs => vs.map loadedToOutcome

/-- Caller-delivery events for the settled outcomes, in position order. -/
def deliveryEvents (outs : List Outcome) : List Event :=
  outs.enum.map (fun p => Event.delivered p.1 p.2)

/-- One full batch round: the envelope dispatched with the session snapshot,
the client state after completion, and the events of the round in order
(session write, then notification, then caller deliveries). -/
def runBatch (transport : BatchEnvelope → Except String BatchResponse)
    (st : ClientState) (requests : List RequestOptions) :
    BatchEnvelope × ClientState × List Event :=
  let step := batchDataHandler transport st requests
  (dispatchEnvelope st requests,
   step.1,
   step.2.1 ++ deliveryEvents (settleBatch requests.length step.2.2))

/-- One `load` call on a DataLoader, identified by the reference identity
(`refId`) of its freshly constructed options object: DataLoader's promise
cache is keyed on the key object itself. Every public method of the client
builds a new options literal per call, so distinct submissions carry distinct
`refId`s. -/
structure Submission where
  refId : Nat
  req : RequestOptions
deriving DecidableEq, Repr

/-- The coalescing `batchDataLoader` accumulating one scheduling window:
each `load` whose key is not in the promise cache is appended to the in-flight
queue (arrival order); a cached key re-uses its existing promise and adds
nothing. Returns the final cache and the queue that will be dispatched. -/
def enqueueLoads : List Nat → List Submission → List Nat × List Submission
  | cache, [] => (cache, [])
  | cache, s :: rest =>
      if s.refId ∈ cache then enqueueLoads cache rest
      else
        ((enqueueLoads (s.refId :: cache) rest).1,
         s :: (enqueueLoads (s.refId :: cache) rest).2)

/-- The `batch: false` `dataLoader`: each `load` whose key is not in the
promise cache immediately dispatches its own singleton batch `[s.req]` to the
batch function. Returns the final cache and the dispatched call list. -/
def singleLoads : List Nat → List Submission → List Nat × List (List RequestOptions)
  | cache, [] => (cache, [])
  | cache, s :: rest =>
      if s.refId ∈ cache then singleLoads cache rest
      else
        ((singleLoads (s.refId :: cache) rest).1,
         [s.req] :: (singleLoads (s.refId :: cache) rest).2)

/-! ### Concrete fixtures used by witnesses -/

def wState : ClientState :=
  { origin := "https://mail.example.test", soapPathname := "/service/soap",
    sessionId := "1", hasNotificationHandler := true }

def wStateNoHandler : ClientState :=
  { origin := "https://mail.example.test", soapPathname := "/service/soap",
    sessionId := "1", hasNotificationHandler := false }

def wReq1 : RequestOptions := { name := "GetInfo", body := "x", accountName := none }

def wReq2 : RequestOptions := { name := "NoOp", body := "y", accountName := none }

def wScoped : RequestOptions :=
  { name := "CreateAppointment", body := "z", accountName := some "user-b" }

def wBatchResponse : BatchResponse :=
  { header := { session := some "s2", notify := ["n0", "n1"] },
    requests := [ReplyItem.ok "a", ReplyItem.err "bad"] }

def wTransportOk : BatchEnvelope → Except String BatchResponse :=
  fun _ => Except.ok wBatchResponse

def wTransportFail : BatchEnvelope → Except String BatchResponse :=
  fun _ => Except.error "netdown"

def wSingleResponse : SingleResponse :=
  SingleResponse.ok { session := some "s2", notify := ["n0", "n1"] } "sb"

def wSingleTransport : SingleEnvelope → Except String SingleResponse :=
  fun _ => Except.ok wSingleResponse

/-! ### Helper lemmas -/

theorem mem_sessionEvents {s : Option String} {ev : Event}
    (h : ev ∈ sessionEvents s) : ∃ t, ev = Event.sessionSet t := by
  cases s with
  | none => simp [sessionEvents] at h
  | some t =>
      by_cases ht : t != ""
      · simp [sessionEvents, ht] at h
        exact ⟨t, h⟩
      · simp [sessionEvents, ht] at h

theorem mem_notifyEvents {st : ClientState} {n : Option String} {ev : Event}
    (h : ev ∈ notifyEvents st n) : ∃ p, ev = Event.notified p := by
  cases n with
  | none => simp [notifyEvents] at h
  | some p =>
      by_cases hh : st.hasNotificationHandler
      · simp [notifyEvents, hh] at h
        exact ⟨p, h⟩
      · simp [notifyEvents, hh] at h

theorem mem_deliveryEvents {outs : List Outcome} {ev : Event}
    (h : ev ∈ deliveryEvents outs) : ∃ i o, ev = Event.delivered i o := by
  simp only [deliveryEvents, List.mem_map] at h
  obtain ⟨p, _, hp⟩ := h
  exact ⟨p.1, p.2, hp.symm⟩

/-! ### Claims -/

/-- C2: `jsonRequest` routes to the single-call loader exactly when the
options carry a non-empty `accountName`, and to the batch loader otherwise;
the decision depends only on the options of that call (in particular it is
independent of all client state, hence re-evaluated per call, never cached). -/
theorem jsonRequest_route_rule :
    (∀ (st : ClientState) (options : RequestOptions),
      jsonRequestOn st options = Route.single ↔
        ∃ s, options.accountName = some s ∧ s ≠ "") ∧
    (∀ (st₁ st₂ : ClientState) (options : RequestOptions),
      jsonRequestOn st₁ options = jsonRequestOn st₂ options) := by
  constructor
  · intro st options
    cases h : options.accountName with
    | none => simp [jsonRequestOn, truthy, h]
    | some s =>
        by_cases hs : s = ""
        · subst hs
          simp [jsonRequestOn, truthy, h]
        · simp [jsonRequestOn, truthy, h, hs]
  · intro st₁ st₂ options
    rfl

/-- C1: for a batch whose transport reply is a structured envelope with a
per-item list of the same length as the input, the settled outcome list has
the input's length, and at every position the caller is rejected exactly when
the reply's item there is an error value, and otherwise resolved with that
item's `body`. -/
theorem batch_demux_by_position
    (transport : BatchEnvelope → Except String BatchResponse)
    (st : ClientState) (requests : List RequestOptions) (response : BatchResponse)
    (hT : transport (dispatchEnvelope st requests) = Except.ok response)
    (hlen : response.requests.length = requests.length) :
    (settleBatch requests.length (batchDataHandler transport st requests).2.2).length
        = requests.length ∧
    ∀ i, i < requests.length →
      (∃ e, response.requests.get? i = some (ReplyItem.err e) ∧
        (settleBatch requests.length
          (batchDataHandler transport st requests).2.2).get? i
            = some (Outcome.rejected e)) ∨
      (∃ b, response.requests.get? i = some (ReplyItem.ok b) ∧
        (settleBatch requests.length
          (batchDataHandler transport st requests).2.2).get? i
            = some (Outcome.resolved b)) := by
  have hout : settleBatch requests.length (batchDataHandler transport st requests).2.2
      = response.requests.map (fun r => loadedToOutcome (mapReplyItem r)) := by
    simp [batchDataHandler, hT, settleBatch]
  constructor
  · rw [hout, List.length_map, hlen]
  · intro i hi
    have hi' : i < response.requests.length := by rw [hlen]; exact hi
    obtain ⟨r, hr⟩ : ∃ r, response.requests.get? i = some r :=
      ⟨response.requests.get ⟨i, hi'⟩, List.get?_eq_get hi'⟩
    have hmap : (settleBatch requests.length
        (batchDataHandler transport st requests).2.2).get? i
          = some (loadedToOutcome (mapReplyItem r)) := by
      rw [hout, List.get?_map, hr, Option.map_some']
    cases r with
    | err e => exact Or.inl ⟨e, hr, by simpa [mapReplyItem, loadedToOutcome] using hmap⟩
    | ok b => exact Or.inr ⟨b, hr, by simpa [mapReplyItem, loadedToOutcome] using hmap⟩

/-- C1 witness: a concrete two-request batch whose reply has a success at
position 0 and an error value at position 1. -/
theorem batch_demux_by_position_witness :
    wTransportOk (dispatchEnvelope wState [wReq1, wReq2]) = Except.ok wBatchResponse ∧
    wBatchResponse.requests.length = [wReq1, wReq2].length ∧
    (settleBatch [wReq1, wReq2].length
      (batchDataHandler wTransportOk wState [wReq1, wReq2]).2.2).length
        = [wReq1, wReq2].length := by
  refine ⟨rfl, rfl, ?_⟩
  exact (batch_demux_by_position wTransportOk wState [wReq1, wReq2] wBatchResponse
    rfl rfl).1

/-- C3: when the transport call for a batch rejects, every caller in the
batch is rejected with that same failure, and none resolves. -/
theorem batch_transport_failure_rejects_all
    (transport : BatchEnvelope → Except String BatchResponse)
    (st : ClientState) (requests : List RequestOptions) (e : String)
    (hT : transport (dispatchEnvelope st requests) = Except.error e) :
    (settleBatch requests.length (batchDataHandler transport st requests).2.2).length
        = requests.length ∧
    (∀ o ∈ settleBatch requests.length (batchDataHandler transport st requests).2.2,
      o = Outcome.rejected e) ∧
    (∀ b, Outcome.resolved b ∉
      settleBatch requests.length (batchDataHandler transport st requests).2.2) := by
  have hout : settleBatch requests.length (batchDataHandler transport st requests).2.2
      = List.replicate requests.length (Outcome.rejected e) := by
    simp [batchDataHandler, hT, settleBatch]
  refine ⟨by rw [hout, List.length_replicate], ?_, ?_⟩
  · intro o ho
    rw [hout] at ho
    exact (List.eq_of_mem_replicate ho)
  · intro b hb
    rw [hout] at hb
    exact absurd (List.eq_of_mem_replicate hb) (by simp)

/-- C3 witness: a concrete two-request batch whose transport rejects. -/
theorem batch_transport_failure_rejects_all_witness :
    wTransportFail (dispatchEnvelope wState [wReq1, wReq2]) = Except.error "netdown" ∧
    (∀ o ∈ settleBatch [wReq1, wReq2].length
        (batchDataHandler wTransportFail wState [wReq1, wReq2]).2.2,
      o = Outcome.rejected "netdown") := by
  refine ⟨rfl, ?_⟩
  exact (batch_transport_failure_rejects_all wTransportFail wState [wReq1, wReq2]
    "netdown" rfl).2.1

/-- C4: on a completed batch, the round's event list splits into a prefix of
non-delivery events (the guarded session write and the at-most-one
notification-handler invocation) followed only by caller deliveries; the
handler invocation count over the whole round is at most one, and the state
in which deliveries happen is already the session-updated one. -/
theorem session_notify_precede_delivery
    (transport : BatchEnvelope → Except String BatchResponse)
    (st : ClientState) (requests : List RequestOptions) (response : BatchResponse)
    (hT : transport (dispatchEnvelope st requests) = Except.ok response) :
    ∃ pre post,
      (runBatch transport st requests).2.2 = pre ++ post ∧
      (∀ ev ∈ pre, isDeliveredE ev = false) ∧
      (∀ ev ∈ post, isDeliveredE ev = true) ∧
      (runBatch transport st requests).2.2.countP isNotifiedE ≤ 1 ∧
      (runBatch transport st requests).2.1
        = applySessionHeader st response.header.session := by
  have hstep : batchDataHandler transport st requests
      = (applySessionHeader st response.header.session,
         sessionEvents response.header.session
           ++ notifyEvents st response.header.notify.head?,
         Except.ok (response.requests.map mapReplyItem)) := by
    simp [batchDataHandler, hT]
  refine ⟨sessionEvents response.header.session
      ++ notifyEvents st response.header.notify.head?,
    deliveryEvents (settleBatch requests.length
      (Except.ok (response.requests.map mapReplyItem))), ?_, ?_, ?_, ?_, ?_⟩
  · simp [runBatch, hstep]
  · intro ev hev
    rcases List.mem_append.mp hev with h | h
    · obtain ⟨t, rfl⟩ := mem_sessionEvents h
      rfl
    · obtain ⟨p, rfl⟩ := mem_notifyEvents h
      rfl
  · intro ev hev
    obtain ⟨i, o, rfl⟩ := mem_deliveryEvents hev
    rfl
  · have hsess : (sessionEvents response.header.session).countP isNotifiedE = 0 := by
      cases h : response.header.session with
      | none => simp [sessionEvents]
      | some s =>
          by_cases hs : s != ""
          · simp [sessionEvents, hs, List.countP_cons, isNotifiedE]
          · simp [sessionEvents, hs]
    have hnot : (notifyEvents st response.header.notify.head?).countP isNotifiedE ≤ 1 := by
      cases h : response.header.notify.head? with
      | none => simp [notifyEvents]
      | some n =>
          by_cases hh : st.hasNotificationHandler
          · simp [notifyEvents, hh, List.countP_cons, isNotifiedE]
          · simp [notifyEvents, hh]
    have hdel : (deliveryEvents (settleBatch requests.length
        (Except.ok (response.requests.map mapReplyItem)))).countP isNotifiedE = 0 := by
      rw [List.countP_eq_zero]
      intro ev hev
      obtain ⟨i, o, rfl⟩ := mem_deliveryEvents hev
      simp [isNotifiedE]
    simp only [runBatch, hstep, List.countP_append]
    omega
  · simp [runBatch, hstep]

/-- C4 witness: a concrete batch whose reply carries both a session token and
notifications, against a client with a registered handler. -/
theorem session_notify_precede_delivery_witness :
    wTransportOk (dispatchEnvelope wState [wReq1, wReq2]) = Except.ok wBatchResponse ∧
    ∃ pre post,
      (runBatch wTransportOk wState [wReq1, wReq2]).2.2 = pre ++ post ∧
      (∀ ev ∈ pre, isDeliveredE ev = false) ∧
      (∀ ev ∈ post, isDeliveredE ev = true) ∧
      (runBatch wTransportOk wState [wReq1, wReq2]).2.2.countP isNotifiedE ≤ 1 ∧
      (runBatch wTransportOk wState [wReq1, wReq2]).2.1
        = applySessionHeader wState wBatchResponse.header.session := by
  exact ⟨rfl, session_notify_precede_delivery wTransportOk wState [wReq1, wReq2]
    wBatchResponse rfl⟩

/-- C5: if the first call's reply carries a (non-empty) session token, then a
second call dispatched after the first one's completion builds its envelope
with that token, not with the session value the first call used. -/
theorem sequential_calls_session_threading
    (transport : BatchEnvelope → Except String BatchResponse)
    (st₀ : ClientState) (reqs₁ reqs₂ : List RequestOptions)
    (response : BatchResponse) (tok : String)
    (hT : transport (dispatchEnvelope st₀ reqs₁) = Except.ok response)
    (htok : response.header.session = some tok) (hne : tok ≠ "") :
    (dispatchEnvelope (batchDataHandler transport st₀ reqs₁).1 reqs₂).sessionId = tok := by
  have hstep : (batchDataHandler transport st₀ reqs₁).1
      = applySessionHeader st₀ response.header.session := by
    simp [batchDataHandler, hT]
  rw [hstep]
  simp [dispatchEnvelope, applySessionHeader, htok, hne]

/-- C5 witness: first reply carries token `"s2"`; the second envelope carries
`"s2"`, not the placeholder `"1"`. -/
theorem sequential_calls_session_threading_witness :
    wTransportOk (dispatchEnvelope wState [wReq1]) = Except.ok wBatchResponse ∧
    wBatchResponse.header.session = some "s2" ∧
    "s2" ≠ "" ∧
    (dispatchEnvelope (batchDataHandler wTransportOk wState [wReq1]).1 [wReq2]).sessionId
      = "s2" := by
  refine ⟨rfl, rfl, by decide, ?_⟩
  exact sequential_calls_session_threading wTransportOk wState [wReq1] [wReq2]
    wBatchResponse "s2" rfl rfl (by decide)

/-- C6 counterexample: a completed batch call whose reply envelope carries the
session token `""` does not replace the client's session with it — the guard
`if (sessionId)` treats the empty string as falsy, so the session stays at the
placeholder `"1"` instead of becoming the carried token. -/
theorem session_empty_token_counterexample :
    ((batchDataHandler
        (fun _ => Except.ok
          { header := { session := some "", notify := [] }, requests := [] })
        { origin := "o", soapPathname := "/service/soap", sessionId := "1",
          hasNotificationHandler := false } []).1).sessionId = "1" ∧
    ((batchDataHandler
        (fun _ => Except.ok
          { header := { session := some "", notify := [] }, requests := [] })
        { origin := "o", soapPathname := "/service/soap", sessionId := "1",
          hasNotificationHandler := false } []).1).sessionId ≠ "" := by
  exact ⟨rfl, by decide⟩

/-- C6 (amended): on every completed call (batched or single) the session is
replaced by the reply envelope's token exactly when that token is present and
non-empty; an absent or empty token leaves the session unchanged; and the
update touches no other field of the client. -/
theorem session_update_exact (st : ClientState) (sessionId : Option String) :
    (∀ t, sessionId = some t → t ≠ "" →
      applySessionHeader st sessionId = { st with sessionId := t }) ∧
    ((sessionId = none ∨ sessionId = some "") → applySessionHeader st sessionId = st) ∧
    (applySessionHeader st sessionId).origin = st.origin ∧
    (applySessionHeader st sessionId).soapPathname = st.soapPathname ∧
    (applySessionHeader st sessionId).hasNotificationHandler
      = st.hasNotificationHandler ∧
    (∀ (transport : BatchEnvelope → Except String BatchResponse)
        (requests : List RequestOptions) (response : BatchResponse),
      transport (dispatchEnvelope st requests) = Except.ok response →
      (batchDataHandler transport st requests).1
        = applySessionHeader st response.header.session) ∧
    (∀ (transport : SingleEnvelope → Except String SingleResponse)
        (r : RequestOptions) (rest : List RequestOptions)
        (response : SingleResponse),
      transport (singleEnvelope st r) = Except.ok response →
      (dataHandler transport st (r :: rest)).map (fun x => x.1)
        = some (applySessionHeader st (respSessionId response))) := by
  have hframe : ∀ s : Option String,
      (applySessionHeader st s).origin = st.origin ∧
      (applySessionHeader st s).soapPathname = st.soapPathname ∧
      (applySessionHeader st s).hasNotificationHandler = st.hasNotificationHandler := by
    intro s
    cases s with
    | none => exact ⟨rfl, rfl, rfl⟩
    | some t =>
        by_cases ht : t != ""
        · simp [applySessionHeader, ht]
        · simp [applySessionHeader, ht]
  refine ⟨?_, ?_, (hframe sessionId).1, (hframe sessionId).2.1, (hframe sessionId).2.2,
    ?_, ?_⟩
  · rintro t rfl hne
    simp [applySessionHeader, hne]
  · rintro (rfl | rfl)
    · rfl
    · simp [applySessionHeader]
  · intro transport requests response hT
    simp [batchDataHandler, hT]
  · intro transport r rest response hT
    simp [dataHandler, hT]

/-- C6 witness: a non-empty carried token `"s2"` replaces the placeholder and
leaves every other field intact; the batch handler's post-state is exactly
this update. -/
theorem session_update_exact_witness :
    (some "s2" = (some "s2" : Option String)) ∧
    "s2" ≠ "" ∧
    applySessionHeader wState (some "s2") = { wState with sessionId := "s2" } ∧
    wTransportOk (dispatchEnvelope wState [wReq1]) = Except.ok wBatchResponse ∧
    (batchDataHandler wTransportOk wState [wReq1]).1
      = applySessionHeader wState wBatchResponse.header.session := by
  refine ⟨rfl, by decide, ?_, rfl, ?_⟩
  · exact (session_update_exact wState (some "s2")).1 "s2" rfl (by decide)
  · exact (session_update_exact wState (some "s2")).2.2.2.2.2.1 wTransportOk [wReq1]
      wBatchResponse rfl

/-- Helper: with fresh, pairwise-distinct key objects, the `batch: false`
loader dispatches exactly one singleton call per submission, in order. -/
theorem singleLoads_calls :
    ∀ (subs : List Submission) (cache : List Nat),
      (∀ s ∈ subs, s.refId ∉ cache) →
      (subs.map Submission.refId).Nodup →
      (singleLoads cache subs).2 = subs.map (fun s => [s.req]) := by
  intro subs
  induction subs with
  | nil => intro cache _ _; rfl
  | cons s rest ih =>
      intro cache hfresh hnodup
      have hs : s.refId ∉ cache := hfresh s (List.mem_cons_self s rest)
      rw [List.map_cons] at hnodup
      obtain ⟨hhead, htail⟩ := List.nodup_cons.mp hnodup
      simp only [singleLoads, if_neg hs, List.map_cons]
      congr 1
      apply ih
      · intro x hx
        simp only [List.mem_cons]
        push_neg
        refine ⟨?_, hfresh x (List.mem_cons_of_mem s hx)⟩
        intro hcontra
        exact hhead (hcontra ▸ List.mem_map_of_mem Submission.refId hx)
      · exact htail

/-- C7: every submission of an accumulation window occupies its own position
of the dispatched batch in arrival order — with fresh key objects (which every
client method guarantees by building a new options literal per call) nothing
is dropped or deduplicated, regardless of whether two submissions' request
contents are structurally equal. -/
theorem coalescer_no_drop_no_dedup
    (cache : List Nat) (subs : List Submission)
    (hfresh : ∀ s ∈ subs, s.refId ∉ cache)
    (hnodup : (subs.map Submission.refId).Nodup) :
    (enqueueLoads cache subs).2 = subs ∧
    (enqueueLoads cache subs).2.map Submission.req = subs.map Submission.req ∧
    (enqueueLoads cache subs).2.length = subs.length := by
  have hq : ∀ (l : List Submission) (c : List Nat),
      (∀ s ∈ l, s.refId ∉ c) → (l.map Submission.refId).Nodup →
      (enqueueLoads c l).2 = l := by
    intro l
    induction l with
    | nil => intro c _ _; rfl
    | cons s rest ih =>
        intro c hf hn
        have hs : s.refId ∉ c := hf s (List.mem_cons_self s rest)
        rw [List.map_cons] at hn
        obtain ⟨hhead, htail⟩ := List.nodup_cons.mp hn
        simp only [enqueueLoads, if_neg hs]
        congr 1
        apply ih
        · intro x hx
          simp only [List.mem_cons]
          push_neg
          refine ⟨?_, hf x (List.mem_cons_of_mem s hx)⟩
          intro hcontra
          exact hhead (hcontra ▸ List.mem_map_of_mem Submission.refId hx)
        · exact htail
  have h := hq subs cache hfresh hnodup
  exact ⟨h, by rw [h], by rw [h]⟩

/-- C7 witness: two structurally identical unscoped submissions (distinct
freshly built options objects) both occupy their own position, in order. -/
theorem coalescer_no_drop_no_dedup_witness :
    (∀ s ∈ [Submission.mk 0 wReq1, Submission.mk 1 wReq1],
      s.refId ∉ ([] : List Nat)) ∧
    (([Submission.mk 0 wReq1, Submission.mk 1 wReq1].map Submission.refId).Nodup) ∧
    (enqueueLoads [] [Submission.mk 0 wReq1, Submission.mk 1 wReq1]).2
      = [Submission.mk 0 wReq1, Submission.mk 1 wReq1] := by
  refine ⟨by decide, by decide, ?_⟩
  exact (coalescer_no_drop_no_dedup [] [Submission.mk 0 wReq1, Submission.mk 1 wReq1]
    (by decide) (by decide)).1

/-- C8: every scoped request submitted through the `batch: false` loader
produces its own transport call carrying exactly that one request; scoped
requests submitted at the same time are never merged into one call. -/
theorem scoped_requests_own_call
    (cache : List Nat) (subs : List Submission)
    (hfresh : ∀ s ∈ subs, s.refId ∉ cache)
    (hnodup : (subs.map Submission.refId).Nodup) :
    (singleLoads cache subs).2 = subs.map (fun s => [s.req]) ∧
    (singleLoads cache subs).2.length = subs.length ∧
    (∀ c ∈ (singleLoads cache subs).2, c.length = 1) := by
  have h := singleLoads_calls subs cache hfresh hnodup
  refine ⟨h, by rw [h, List.length_map], ?_⟩
  intro c hc
  rw [h] at hc
  obtain ⟨s, _, rfl⟩ := List.mem_map.mp hc
  rfl

/-- C8 witness: two structurally identical scoped submissions produce two
separate singleton calls. -/
theorem scoped_requests_own_call_witness :
    (∀ s ∈ [Submission.mk 0 wScoped, Submission.mk 1 wScoped],
      s.refId ∉ ([] : List Nat)) ∧
    (([Submission.mk 0 wScoped, Submission.mk 1 wScoped].map Submission.refId).Nodup) ∧
    (singleLoads [] [Submission.mk 0 wScoped, Submission.mk 1 wScoped]).2
      = [[wScoped], [wScoped]] := by
  refine ⟨by decide, by decide, ?_⟩
  exact (scoped_requests_own_call [] [Submission.mk 0 wScoped, Submission.mk 1 wScoped]
    (by decide) (by decide)).1

/-- Helper: the guarded session write emits no notification event. -/
theorem filter_isNotifiedE_sessionEvents (s : Option String) :
    (sessionEvents s).filter isNotifiedE = [] := by
  cases s with
  | none => rfl
  | some t =>
      by_cases ht : t != ""
      · simp [sessionEvents, ht, isNotifiedE]
      · simp [sessionEvents, ht]

/-- Helper: the relay step emits the first block to the handler when one is
registered, and nothing otherwise. -/
theorem filter_isNotifiedE_notifyEvents (st : ClientState) (n : String) :
    (notifyEvents st (some n)).filter isNotifiedE
      = if st.hasNotificationHandler then [Event.notified n] else [] := by
  by_cases hh : st.hasNotificationHandler
  · simp [notifyEvents, hh, isNotifiedE]
  · simp [notifyEvents, hh]

/-- C9: when a completed call's reply carries more than one notification
block, the handler (if registered) is invoked exactly once, with the first
block only; with no handler registered there is no invocation. Holds on both
the batch and the single-call path. -/
theorem notify_first_block_only
    (tb : BatchEnvelope → Except String BatchResponse)
    (ts : SingleEnvelope → Except String SingleResponse)
    (st : ClientState) (reqs : List RequestOptions) (r : RequestOptions)
    (bresp : BatchResponse) (hdr : Header) (body : String)
    (n0 n1 : String) (more : List String)
    (hTb : tb (dispatchEnvelope st reqs) = Except.ok bresp)
    (hbn : bresp.header.notify = n0 :: n1 :: more)
    (hTs : ts (singleEnvelope st r) = Except.ok (SingleResponse.ok hdr body))
    (hsn : hdr.notify = n0 :: n1 :: more) :
    ((batchDataHandler tb st reqs).2.1.filter isNotifiedE
      = if st.hasNotificationHandler then [Event.notified n0] else []) ∧
    ((dataHandler ts st [r]).map (fun x => x.2.1.filter isNotifiedE)
      = some (if st.hasNotificationHandler then [Event.notified n0] else [])) := by
  constructor
  · have hevs : (batchDataHandler tb st reqs).2.1
        = sessionEvents bresp.header.session
            ++ notifyEvents st bresp.header.notify.head? := by
      simp [batchDataHandler, hTb]
    rw [hevs, hbn, List.filter_append, filter_isNotifiedE_sessionEvents]
    simpa using filter_isNotifiedE_notifyEvents st n0
  · have hevs : (dataHandler ts st [r]).map (fun x => x.2.1)
        = some (sessionEvents hdr.session ++ notifyEvents st hdr.notify.head?) := by
      simp [dataHandler, hTs, respSessionId, respNotifyHead]
    have hred : dataHandler ts st [r]
        = some (applySessionHeader st hdr.session,
            sessionEvents hdr.session ++ notifyEvents st hdr.notify.head?,
            Except.ok [LoadedValue.val body]) := by
      simp [dataHandler, hTs, respSessionId, respNotifyHead]
    rw [hred, Option.map_some']
    simp only [hsn, List.head?_cons, List.filter_append,
      filter_isNotifiedE_sessionEvents, List.nil_append]
    exact congrArg some (filter_isNotifiedE_notifyEvents st n0)

/-- C9 witness: a reply carrying two notification blocks, once against a
client with a handler and once against one without. -/
theorem notify_first_block_only_witness :
    wTransportOk (dispatchEnvelope wState [wReq1]) = Except.ok wBatchResponse ∧
    wBatchResponse.header.notify = ["n0", "n1"] ∧
    wSingleTransport (singleEnvelope wState wScoped)
      = Except.ok (SingleResponse.ok { session := some "s2", notify := ["n0", "n1"] } "sb") ∧
    ((batchDataHandler wTransportOk wState [wReq1]).2.1.filter isNotifiedE
      = [Event.notified "n0"]) ∧
    ((batchDataHandler wTransportOk wStateNoHandler [wReq1]).2.1.filter isNotifiedE
      = []) := by
  refine ⟨rfl, rfl, rfl, ?_, ?_⟩
  · have h := (notify_first_block_only wTransportOk wSingleTransport wState [wReq1]
      wScoped wBatchResponse { session := some "s2", notify := ["n0", "n1"] } "sb"
      "n0" "n1" [] rfl rfl rfl rfl).1
    simpa [wState] using h
  · have h := (notify_first_block_only wTransportOk wSingleTransport wStateNoHandler
      [wReq1] wScoped wBatchResponse { session := some "s2", notify := ["n0", "n1"] }
      "sb" "n0" "n1" [] rfl rfl rfl rfl).1
    simpa [wStateNoHandler] using h

/-- C10: the single-call handler depends only on the first element of its
input list, its successful value is always a one-element list, and the
`batch: false` loader upholds the invariant that the handler is only invoked
with singleton lists. -/
theorem dataHandler_first_only_singleton :
    (∀ (ts : SingleEnvelope → Except String SingleResponse) (st : ClientState)
        (r : RequestOptions) (rest₁ rest₂ : List RequestOptions),
      dataHandler ts st (r :: rest₁) = dataHandler ts st (r :: rest₂)) ∧
    (∀ (ts : SingleEnvelope → Except String SingleResponse) (st : ClientState)
        (reqs : List RequestOptions)
        (out : ClientState × List Event × Except String (List LoadedValue))
        (vs : List LoadedValue),
      dataHandler ts st reqs = some out → out.2.2 = Except.ok vs → vs.length = 1) ∧
    (∀ (cache : List Nat) (subs : List Submission),
      (∀ s ∈ subs, s.refId ∉ cache) → (subs.map Submission.refId).Nodup →
      ∀ c ∈ (singleLoads cache subs).2, c.length = 1) := by
  refine ⟨?_, ?_, ?_⟩
  · intro ts st r rest₁ rest₂
    rfl
  · intro ts st reqs out vs hout hvs
    cases hreq : reqs.head? with
    | none => simp [dataHandler, hreq] at hout
    | some r =>
        cases hT : ts (singleEnvelope st r) with
        | error e =>
            simp [dataHandler, hreq, hT] at hout
            rw [← hout] at hvs
            simp at hvs
        | ok response =>
            cases response with
            | err e =>
                simp [dataHandler, hreq, hT] at hout
                rw [← hout] at hvs
                simp at hvs
                rw [← hvs]
                rfl
            | ok hdr b =>
                simp [dataHandler, hreq, hT] at hout
                rw [← hout] at hvs
                simp at hvs
                rw [← hvs]
                rfl
  · intro cache subs hfresh hnodup c hc
    rw [singleLoads_calls subs cache hfresh hnodup] at hc
    obtain ⟨s, _, rfl⟩ := List.mem_map.mp hc
    rfl

/-- C10 witness: a concrete invocation; appending extra elements to the input
leaves the handler's result unchanged, and the successful value is a
singleton. -/
theorem dataHandler_first_only_singleton_witness :
    (dataHandler wSingleTransport wState (wScoped :: [wReq1])
      = dataHandler wSingleTransport wState (wScoped :: [wReq2])) ∧
    (dataHandler wSingleTransport wState [wScoped]
      = some ({ wState with sessionId := "s2" },
          [Event.sessionSet "s2", Event.notified "n0"],
          Except.ok [LoadedValue.val "sb"])) ∧
    ([LoadedValue.val "sb"] : List LoadedValue).length = 1 ∧
    (∀ c ∈ (singleLoads [] [Submission.mk 0 wScoped]).2, c.length = 1) := by
  refine ⟨?_, rfl, ?_, ?_⟩
  · exact dataHandler_first_only_singleton.1 wSingleTransport wState wScoped [wReq1] [wReq2]
  · exact dataHandler_first_only_singleton.2.1 wSingleTransport wState [wScoped]
      ({ wState with sessionId := "s2" },
        [Event.sessionSet "s2", Event.notified "n0"],
        Except.ok [LoadedValue.val "sb"])
      [LoadedValue.val "sb"] rfl rfl
  · exact dataHandler_first_only_singleton.2.2 [] [Submission.mk 0 wScoped]
      (by decide) (by decide)

end ZmBatchClient
